import Mathlib

/-!
Shallow embedding of the snap-state persistence layer
(`src/unnamed/part_000`, a TypeScript module): the record locators,
the mutex-serialized upsert engine, the transaction filter pipeline and
the retention/pruning operation, together with theorems settling the
frozen claims about them.

Conventions of the embedding:
* JavaScript values that can be `undefined` are `Option`s.
* Code that can throw returns `Except String`; `.error` models a thrown
  exception, `.ok` a normal return.
* `num.toBigInt` (starknet.js) and `Number(...)` are modelled as parsers
  of numeric strings to `Option Nat`: `none` models a thrown exception
  for `toBigInt` and `NaN` for `Number`.  On the integral decimal and
  `0x`-hex strings this code stores, both agree and are exact
  (`Number` is exact below 2^53; chain-id comparison is modelled exactly).
* In-place mutation of a found record is modelled as `List.set` at the
  index of the first match.
-/

/-- Parse a hexadecimal digit, as JavaScript numeric parsing does. -/
def hexDigit (c : Char) : Option Nat :=
  if '0' ≤ c ∧ c ≤ '9' then some (c.toNat - '0'.toNat)
  else if 'a' ≤ c ∧ c ≤ 'f' then some (c.toNat - 'a'.toNat + 10)
  else if 'A' ≤ c ∧ c ≤ 'F' then some (c.toNat - 'A'.toNat + 10)
  else none

/-- Parse a decimal digit. -/
def decDigit (c : Char) : Option Nat :=
  if '0' ≤ c ∧ c ≤ '9' then some (c.toNat - '0'.toNat) else none

/-- Fold a digit list into a number in the given base; `none` if any
character is not a digit of that base. -/
def digitsToNat (base : Nat) (digit : Char → Option Nat) (cs : List Char) : Option Nat :=
  cs.foldl
    (fun acc c =>
      match acc, digit c with
      | some a, some d => some (a * base + d)
      | _, _ => none)
    (some 0)

/-- Hex digit run; empty runs are invalid (`BigInt("0x")` throws). -/
def parseHexRun (cs : List Char) : Option Nat :=
  if cs.isEmpty then none else digitsToNat 16 hexDigit cs

/-- Decimal digit run; empty handled by the caller. -/
def parseDecRun (cs : List Char) : Option Nat :=
  if cs.isEmpty then none else digitsToNat 10 decDigit cs

/-- Model of `num.toBigInt` (starknet.js), i.e. `BigInt(string)`:
`""` is 0, a `0x`/`0X` prefix selects hexadecimal, otherwise decimal;
`none` models the `SyntaxError` thrown on any other string. -/
def toBigInt (s : String) : Option Nat :=
  match s.toList with
  | [] => some 0
  | '0' :: 'x' :: rest => parseHexRun rest
  | '0' :: 'X' :: rest => parseHexRun rest
  | cs => parseDecRun cs

/-- Model of JavaScript `Number(string)` on the integral strings this
module stores: `""` is 0, `0x`-hex or decimal otherwise; `none` models
`NaN`.  On these strings it coincides with `toBigInt` and is exact. -/
def jsNumber (s : String) : Option Nat :=
  toBigInt s

/-- JavaScript `===` on two `Number(...)` results: `NaN` (modelled
`none`) is not equal to anything, including itself. -/
def numEq (a b : Option Nat) : Bool :=
  match a, b with
  | some x, some y => x == y
  | _, _ => false

deriving instance DecidableEq for Except

/-- Lift an `Option` into `Except`, the `none` case modelling a thrown
exception with the given message. -/
def ofOption (o : Option α) (msg : String) : Except String α :=
  match o with
  | some a => .ok a
  | none => .error msg

/-- Modelled from the spec (§3 data model) and the field accesses in the
source: the `AccContract` record of `types/snapState` (file absent from
`src/`).  `deployTxnHash` is a string; the empty string is the falsy
"absent" hash. -/
structure AccContract where
  address : String
  chainId : String
  addressSalt : String
  addressIndex : Int
  derivationPath : String
  publicKey : String
  deployTxnHash : String
deriving DecidableEq, Repr

/-- Modelled from the spec (§3) and the field accesses in the source:
the `Network` record of `types/snapState` (file absent from `src/`).
`useOldAccounts` is optional in the source; absent reads as `false`. -/
structure Network where
  chainId : String
  name : String
  baseUrl : String
  nodeUrl : String
  voyagerUrl : String
  accountClassHash : String
  useOldAccounts : Bool
deriving DecidableEq, Repr

/-- Modelled from the spec (§3) and the field accesses in the source:
the `Erc20Token` record of `types/snapState` (file absent from `src/`). -/
structure Erc20Token where
  address : String
  chainId : String
  name : String
  symbol : String
  decimals : Int
deriving DecidableEq, Repr

/-- Modelled from the spec (§3) and the field accesses in the source:
the `Transaction` record of `types/snapState` (file absent from `src/`).
`timestamp` is in seconds. -/
structure Transaction where
  txnHash : String
  chainId : String
  senderAddress : String
  contractAddress : String
  txnType : String
  status : String
  finalityStatus : String
  executionStatus : String
  failureReason : String
  timestamp : Int
deriving DecidableEq, Repr

/-- Modelled from the spec (§6 document shape) and the source's usage:
the `SnapState` document.  Every collection is optional. -/
structure SnapState where
  accContracts : Option (List AccContract)
  networks : Option (List Network)
  erc20Tokens : Option (List Erc20Token)
  transactions : Option (List Transaction)
deriving DecidableEq, Repr

/-- Modelled from the spec and the source's usage: the value of the
`TransactionStatus.ACCEPTED_ON_L2` string-enum member (enum declared in
`types/snapState`, absent from `src/`). -/
def ACCEPTED_ON_L2 : String := "ACCEPTED_ON_L2"

/-- Modelled from the spec and the source's usage: the value of
`TransactionStatus.ACCEPTED_ON_L1`. -/
def ACCEPTED_ON_L1 : String := "ACCEPTED_ON_L1"

/-- Modelled from the spec (§4.1 canonical equality): `toJson` of
`./serializer` (absent from `src/`) is a deterministic,
field-order-independent serialization whose results compare equal
exactly when the two records are structurally equal; we model the
comparison `toJson a === toJson b` directly as structural equality. -/
def canonicalEq [DecidableEq α] (a b : α) : Bool :=
  a == b

/-- Generic `Array.prototype.find` with a predicate that may throw,
returning the index and element of the first match; the JS `find`
returns the element, the index records where the in-place mutation of a
found record lands. -/
def findWithIdxAux (p : α → Except String Bool) : List α → Nat → Except String (Option (Nat × α))
  | [], _ => .ok none
  | x :: xs, i => do
      let b ← p x
      if b then pure (some (i, x)) else findWithIdxAux p xs (i + 1)

/-- First match (with its index) of a possibly-throwing predicate. -/
def findWithIdx (p : α → Except String Bool) (l : List α) : Except String (Option (Nat × α)) :=
  findWithIdxAux p l 0

/-- The account-locator predicate of `getAccount`: compare the stored
address as an unsigned integer against the already-parsed query address
(`num.toBigInt(acc.address) === bigIntAccountAddress`, which may throw
on the stored string) and the chain ids via `Number` equality. -/
def accountPred (big : Nat) (chainId : String) (acc : AccContract) : Except String Bool := do
  let a ← ofOption (toBigInt acc.address) "toBigInt"
  pure (a == big && numEq (jsNumber acc.chainId) (jsNumber chainId))

/-- `getAccount` with the match index exposed (the source keeps a live
reference to the found record; we keep its index). -/
def getAccountIdx (state : SnapState) (accountAddress chainId : String) :
    Except String (Option (Nat × AccContract)) := do
  let big ← ofOption (toBigInt accountAddress) "toBigInt"
  match state.accContracts with
  | none => pure none
  | some l => findWithIdx (accountPred big chainId) l

/-- `getAccount` of the source: first account whose address matches as an
unsigned integer and whose chain id matches numerically; `none` when the
collection is absent or nothing matches; `.error` when `num.toBigInt`
throws. -/
def getAccount (state : SnapState) (accountAddress chainId : String) :
    Except String (Option AccContract) :=
  (getAccountIdx state accountAddress chainId).map (fun o => o.map Prod.snd)

/-- `getAccounts` of the source: `state.accContracts.filter(...)` — note
the missing optional chaining, so an absent collection is a TypeError —
then a sort ascending by `addressIndex` (JS sort is stable). -/
def getAccounts (state : SnapState) (chainId : String) :
    Except String (List AccContract) :=
  match state.accContracts with
  | none => .error "TypeError: cannot read filter of undefined"
  | some l =>
      .ok ((l.filter (fun acc => numEq (jsNumber acc.chainId) (jsNumber chainId))).mergeSort
        (fun a b => a.addressIndex ≤ b.addressIndex))

/-- `getNetwork` of the source: first network whose chain id matches
numerically and whose `useOldAccounts` flag is not set; never throws. -/
def getNetwork (state : SnapState) (chainId : String) : Option Network :=
  (state.networks.getD []).find?
    (fun n => numEq (jsNumber n.chainId) (jsNumber chainId) && !n.useOldAccounts)

/-- `getNetworks` of the source: the raw optional collection. -/
def getNetworks (state : SnapState) : Option (List Network) :=
  state.networks

/-- The token-locator predicate of `getErc20Token`. -/
def tokenPred (big : Nat) (chainId : String) (token : Erc20Token) : Except String Bool := do
  let a ← ofOption (toBigInt token.address) "toBigInt"
  pure (a == big && numEq (jsNumber token.chainId) (jsNumber chainId))

/-- `getErc20Token` with the match index exposed. -/
def getErc20TokenIdx (state : SnapState) (tokenAddress chainId : String) :
    Except String (Option (Nat × Erc20Token)) := do
  let big ← ofOption (toBigInt tokenAddress) "toBigInt"
  match state.erc20Tokens with
  | none => pure none
  | some l => findWithIdx (tokenPred big chainId) l

/-- `getErc20Token` of the source. -/
def getErc20Token (state : SnapState) (tokenAddress chainId : String) :
    Except String (Option Erc20Token) :=
  (getErc20TokenIdx state tokenAddress chainId).map (fun o => o.map Prod.snd)

/-- `getErc20Tokens` of the source: `state.erc20Tokens?.filter(...)`,
which is `undefined` (here `none`) when the collection is absent. -/
def getErc20Tokens (state : SnapState) (chainId : String) :
    Option (List Erc20Token) :=
  state.erc20Tokens.map
    (fun l => l.filter (fun t => numEq (jsNumber t.chainId) (jsNumber chainId)))

/-- The transaction-locator predicate of `getTransaction`. -/
def txnPred (big : Nat) (chainId : String) (txn : Transaction) : Except String Bool := do
  let a ← ofOption (toBigInt txn.txnHash) "toBigInt"
  pure (a == big && numEq (jsNumber txn.chainId) (jsNumber chainId))

/-- `getTransaction` with the match index exposed. -/
def getTransactionIdx (state : SnapState) (txnHash chainId : String) :
    Except String (Option (Nat × Transaction)) := do
  let big ← ofOption (toBigInt txnHash) "toBigInt"
  match state.transactions with
  | none => pure none
  | some l => findWithIdx (txnPred big chainId) l

/-- `getTransaction` of the source. -/
def getTransaction (state : SnapState) (txnHash chainId : String) :
    Except String (Option Transaction) :=
  (getTransactionIdx state txnHash chainId).map (fun o => o.map Prod.snd)

/-- The merge branch of `upsertAccount`: copy the mutable fields from the
incoming account onto the stored one; `deployTxnHash` is
`userAccount.deployTxnHash || storedAccount.deployTxnHash`, where the
empty string is falsy. -/
def mergeAccount (stored incoming : AccContract) : AccContract :=
  { stored with
    addressSalt := incoming.addressSalt
    addressIndex := incoming.addressIndex
    derivationPath := incoming.derivationPath
    publicKey := incoming.publicKey
    deployTxnHash :=
      if incoming.deployTxnHash = "" then stored.deployTxnHash
      else incoming.deployTxnHash }

/-- The critical section of `upsertAccount`, as a pure transformer of the
(already fetched) document: locate, insert-or-merge, and report whether
the host `update` call is made (`true`) or skipped by the canonical
no-op check (`false`). -/
def upsertAccountCore (userAccount : AccContract) (state : SnapState) :
    Except String (SnapState × Bool) := do
  let found ← getAccountIdx state userAccount.address userAccount.chainId
  match found with
  | none =>
      pure ({ state with
              accContracts := some ((state.accContracts.getD []) ++ [userAccount]) },
            true)
  | some (i, stored) =>
      if canonicalEq stored userAccount then
        pure (state, false)
      else
        pure ({ state with
                accContracts :=
                  some ((state.accContracts.getD []).set i (mergeAccount stored userAccount)) },
              true)

/-- The merge branch of `upsertNetwork`. -/
def mergeNetwork (stored incoming : Network) : Network :=
  { stored with
    name := incoming.name
    baseUrl := incoming.baseUrl
    nodeUrl := incoming.nodeUrl
    voyagerUrl := incoming.voyagerUrl
    accountClassHash := incoming.accountClassHash }

/-- The critical section of `upsertNetwork`.  `getNetwork` never throws,
and in-place mutation of the found network is modelled by updating the
first element satisfying the locator predicate. -/
def upsertNetworkCore (network : Network) (state : SnapState) : SnapState × Bool :=
  let p : Network → Bool :=
    fun n => numEq (jsNumber n.chainId) (jsNumber network.chainId) && !n.useOldAccounts
  match (state.networks.getD []).findIdx? p with
  | none => ({ state with networks := some ((state.networks.getD []) ++ [network]) }, true)
  | some i =>
      let stored := (state.networks.getD []).getD i network
      if canonicalEq stored network then (state, false)
      else
        ({ state with networks := some ((state.networks.getD []).set i (mergeNetwork stored network)) },
         true)

/-- The merge branch of `upsertErc20Token`. -/
def mergeErc20Token (stored incoming : Erc20Token) : Erc20Token :=
  { stored with
    name := incoming.name
    symbol := incoming.symbol
    decimals := incoming.decimals }

/-- The critical section of `upsertErc20Token`. -/
def upsertErc20TokenCore (erc20Token : Erc20Token) (state : SnapState) :
    Except String (SnapState × Bool) := do
  let found ← getErc20TokenIdx state erc20Token.address erc20Token.chainId
  match found with
  | none =>
      pure ({ state with
              erc20Tokens := some ((state.erc20Tokens.getD []) ++ [erc20Token]) },
            true)
  | some (i, stored) =>
      if canonicalEq stored erc20Token then
        pure (state, false)
      else
        pure ({ state with
                erc20Tokens :=
                  some ((state.erc20Tokens.getD []).set i (mergeErc20Token stored erc20Token)) },
              true)

/-- The merge branch of `upsertTransaction` (and of each record of the
batch `upsertTransactions`): copy the five mutable fields. -/
def mergeTransaction (stored incoming : Transaction) : Transaction :=
  { stored with
    status := incoming.status
    executionStatus := incoming.executionStatus
    finalityStatus := incoming.finalityStatus
    failureReason := incoming.failureReason
    timestamp := incoming.timestamp }

/-- The critical section of `upsertTransaction` (single-record path,
with the canonical no-op check). -/
def upsertTransactionCore (txn : Transaction) (state : SnapState) :
    Except String (SnapState × Bool) := do
  let found ← getTransactionIdx state txn.txnHash txn.chainId
  match found with
  | none =>
      pure ({ state with
              transactions := some ((state.transactions.getD []) ++ [txn]) },
            true)
  | some (i, stored) =>
      if canonicalEq stored txn then
        pure (state, false)
      else
        pure ({ state with
                transactions :=
                  some ((state.transactions.getD []).set i (mergeTransaction stored txn)) },
              true)

/-- One iteration of the `txns.forEach` loop of the batch
`upsertTransactions`: locate, then insert or merge — with no canonical
no-op check on this path. -/
def batchTxnStep (state : SnapState) (txn : Transaction) : Except String SnapState := do
  let found ← getTransactionIdx state txn.txnHash txn.chainId
  match found with
  | none =>
      pure { state with transactions := some ((state.transactions.getD []) ++ [txn]) }
  | some (i, stored) =>
      pure { state with
             transactions := some ((state.transactions.getD []).set i (mergeTransaction stored txn)) }

/-- The whole `txns.forEach` loop of `upsertTransactions`. -/
def batchApply (txns : List Transaction) (state : SnapState) : Except String SnapState :=
  txns.foldlM batchTxnStep state

/-- One observable interaction of a mutating operation: taking or
releasing the shared mutex, or one call to the host
(`snap_manageState` `get` / `update`). -/
inductive HostEvent where
  | acquireLock
  | get
  | update (newState : SnapState)
  | releaseLock
deriving DecidableEq, Repr

/-- Whether an event is a host `update` call. -/
def HostEvent.isUpdate : HostEvent → Bool
  | .update _ => true
  | _ => false

/-- `upsertTransactions` of the source, at the host-interaction level:
one `runExclusive` (modelled from the spec §4.4/§5: the async-mutex
acquire/release discipline, library absent from `src/`), a host `get`
only when no document was supplied, the `forEach` loop over the batch,
and then an unconditional host `update`.  Returns the event trace and
the outcome; on a thrown error the lock is still released and no
`update` is issued. -/
def upsertTransactionsOp (txns : List Transaction) (supplied : Option SnapState)
    (hostDoc : SnapState) : List HostEvent × Except String SnapState :=
  let fetch : List HostEvent × SnapState :=
    match supplied with
    | some s => ([], s)
    | none => ([HostEvent.get], hostDoc)
  match batchApply txns fetch.2 with
  | .error e =>
      ([HostEvent.acquireLock] ++ fetch.1 ++ [HostEvent.releaseLock], .error e)
  | .ok s' =>
      ([HostEvent.acquireLock] ++ fetch.1 ++ [HostEvent.update s', HostEvent.releaseLock], .ok s')

/-- The retained-transaction predicate of `removeAcceptedTransaction`:
keep a transaction when its finality status is on neither accepted tier,
or when it is `ACCEPTED_ON_L2` and its timestamp (seconds) scaled to
milliseconds is at least the cutoff.  Note the second disjunct names
only `ACCEPTED_ON_L2`. -/
def keepTxn (minTimeStamp : Int) (txn : Transaction) : Bool :=
  (txn.finalityStatus != ACCEPTED_ON_L2 && txn.finalityStatus != ACCEPTED_ON_L1) ||
  (txn.finalityStatus == ACCEPTED_ON_L2 && txn.timestamp * 1000 ≥ minTimeStamp)

/-- The critical section of `removeAcceptedTransaction`:
`state.transactions.filter(...)` (a TypeError when the collection is
absent — no optional chaining) followed by an unconditional host
`update` (the `Bool` is the write-back flag, always `true`). -/
def removeAcceptedTransactionCore (minTimeStamp : Int) (state : SnapState) :
    Except String (SnapState × Bool) :=
  match state.transactions with
  | none => .error "TypeError: cannot read filter of undefined"
  | some l => .ok ({ state with transactions := some (l.filter (keepTxn minTimeStamp)) }, true)

/-- Modelled from the spec (§4.3 filter pipeline; the
`transaction/filter` module is absent from `src/`): one filter object,
as constructed by `getTransactions` — each variant carries its optional
configuration.  A set-valued configuration is a list; the source also
accepts a single value, modelled as the singleton list. -/
inductive TxnFilter where
  | chainId (cid : Option Nat)
  | timestamp (minTs : Option Int)
  | senderAddress (addr : Option Nat)
  | contractAddress (addr : Option Nat)
  | txnType (tys : Option (List String))
  | status (finality execution : Option (List String))
deriving DecidableEq, Repr

/-- Modelled from the spec (§4.3): the `matches` operation of one
filter.  An unset configuration passes every transaction (except the
chain filter, which the spec makes required: a `NaN` chain id matches
nothing); the status filter requires both sub-conditions when both are
given. -/
def TxnFilter.matches : TxnFilter → Transaction → Bool
  | .chainId cid, txn => numEq (jsNumber txn.chainId) cid
  | .timestamp minTs, txn =>
      match minTs with
      | none => true
      | some m => txn.timestamp * 1000 ≥ m
  | .senderAddress addr, txn =>
      match addr with
      | none => true
      | some v => toBigInt txn.senderAddress == some v
  | .contractAddress addr, txn =>
      match addr with
      | none => true
      | some v => toBigInt txn.contractAddress == some v
  | .txnType tys, txn =>
      match tys with
      | none => true
      | some l => l.contains txn.txnType
  | .status finality execution, txn =>
      (match finality with
       | none => true
       | some l => l.contains txn.finalityStatus) &&
      (match execution with
       | none => true
       | some l => l.contains txn.executionStatus)

/-- Modelled from the spec (§4.3): `filterTransactions` keeps the
transactions matched by every filter of the pipeline, preserving order
(a stable filter). -/
def filterTransactions (txns : List Transaction) (filters : List TxnFilter) :
    List Transaction :=
  txns.filter (fun t => filters.all (fun f => f.matches t))

/-- The argument expression `senderAddress ? num.toBigInt(senderAddress)
: undefined` of `getTransactions` (likewise for the contract address):
an absent or empty (falsy) string is passed through as `undefined`, any
other string goes through `num.toBigInt`, which can throw. -/
def resolveOptBigInt (o : Option String) : Except String (Option Nat) :=
  match o with
  | some sa =>
      if sa = "" then pure none
      else do
        let v ← ofOption (toBigInt sa) "toBigInt"
        pure (some v)
  | none => pure none

/-- `getTransactions` of the source: an empty result when the
transaction collection is absent (the filter pipeline is not even
built); otherwise the six-filter pipeline over the stored list. -/
def getTransactions (state : SnapState) (chainId : String)
    (senderAddress contractAddress : Option String)
    (txnType : Option (List String))
    (finalityStatus executionStatus : Option (List String))
    (minTimestamp : Option Int) : Except String (List Transaction) :=
  match state.transactions with
  | none => .ok []
  | some txns => do
      let senderBig ← resolveOptBigInt senderAddress
      let contractBig ← resolveOptBigInt contractAddress
      pure (filterTransactions txns
        [TxnFilter.chainId (jsNumber chainId),
         TxnFilter.timestamp minTimestamp,
         TxnFilter.senderAddress senderBig,
         TxnFilter.contractAddress contractBig,
         TxnFilter.txnType txnType,
         TxnFilter.status finalityStatus executionStatus])

/-- Modelled from the spec and the source's usage: the chain id of
`STARKNET_TESTNET_NETWORK` (`constants` module, absent from `src/`),
used as the fallback when no chain id is supplied. -/
def STARKNET_TESTNET_chainId : String := "0x534e5f474f45524c49"

/-- `getNetworkFromChainId` of the source: fall back to the testnet
chain id when the argument is absent or falsy, then `getNetwork`; a miss
throws the distinct "can't find the network" error instead of returning
an empty result. -/
def getNetworkFromChainId (state : SnapState) (targetChainId : Option String) :
    Except String Network :=
  let chainId :=
    match targetChainId with
    | some c => if c = "" then STARKNET_TESTNET_chainId else c
    | none => STARKNET_TESTNET_chainId
  match getNetwork state chainId with
  | none => .error ("cant find the network in snap state with chainId: " ++ chainId)
  | some n => .ok n

/-- Program counter and task-local data of one cooperative task running
`upsertErc20Token` in the concurrency model: 0 = about to acquire the
lock, 1 = about to fetch via host `get` (a suspension point), 2 = about
to run the synchronous locate/merge-or-insert body, 3 = about to call
host `update` (a suspension point; skipped when the no-op check fired),
4 = about to release, 5 = done. -/
structure TaskState where
  pc : Nat
  localDoc : Option SnapState
  doWrite : Bool
deriving DecidableEq, Repr

/-- A configuration of the two-task concurrency model: the host's
persisted document, the single shared mutex (`none` free, `some i` held
by task `i`; modelled from the spec §4.4/§5, the async-mutex library
being absent from `src/`), and the two task states. -/
structure Config where
  host : SnapState
  lock : Option (Fin 2)
  task0 : TaskState
  task1 : TaskState
deriving DecidableEq, Repr

/-- One step of task `i` running `upsertErc20Token tok` with no
pre-supplied document: acquire blocks while the mutex is held, the
fetch copies the host document, the body runs `upsertErc20TokenCore`
(a thrown error skips the update but still releases), the update
writes the local document back when the write flag is set, and release
frees the mutex.  `none` means the task cannot step (blocked or done). -/
def stepTask (tok : Erc20Token) (host : SnapState) (lock : Option (Fin 2)) (i : Fin 2)
    (ts : TaskState) : Option (SnapState × Option (Fin 2) × TaskState) :=
  match ts.pc with
  | 0 =>
      match lock with
      | none => some (host, some i, { ts with pc := 1 })
      | some _ => none
  | 1 => some (host, lock, { ts with pc := 2, localDoc := some host })
  | 2 =>
      match ts.localDoc with
      | none => none
      | some s =>
          match upsertErc20TokenCore tok s with
          | .ok (s', w) => some (host, lock, { pc := 3, localDoc := some s', doWrite := w })
          | .error _ => some (host, lock, { ts with pc := 4 })
  | 3 =>
      match ts.localDoc with
      | some s => some ((if ts.doWrite then s else host), lock, { ts with pc := 4 })
      | none => none
  | 4 =>
      match lock with
      | some j => if j = i then some (host, none, { ts with pc := 5 }) else none
      | _ => none
  | _ => none

/-- All successor configurations: either task may be scheduled at any
step at which it is enabled. -/
def succs (tokA tokB : Erc20Token) (c : Config) : List Config :=
  (match stepTask tokA c.host c.lock 0 c.task0 with
   | some (h, l, t) => [{ host := h, lock := l, task0 := t, task1 := c.task1 }]
   | none => []) ++
  (match stepTask tokB c.host c.lock 1 c.task1 with
   | some (h, l, t) => [{ host := h, lock := l, task0 := c.task0, task1 := t }]
   | none => [])

/-- The initial configuration: a document with no token collection yet,
the mutex free, both tasks at their first step. -/
def initConfig : Config :=
  { host := { accContracts := none, networks := none, erc20Tokens := none, transactions := none }
    lock := none
    task0 := { pc := 0, localDoc := none, doWrite := false }
    task1 := { pc := 0, localDoc := none, doWrite := false } }

/-- Configurations reachable in exactly `n` steps (with multiplicity
per interleaving). -/
def levels (tokA tokB : Erc20Token) : Nat → List Config
  | 0 => [initConfig]
  | n + 1 => (levels tokA tokB n).flatMap (succs tokA tokB)

/-- A task is inside the locked critical section between its acquire
and its release. -/
def inCrit (ts : TaskState) : Bool :=
  1 ≤ ts.pc && ts.pc ≤ 4

/-- Both tasks have finished. -/
def Config.done (c : Config) : Bool :=
  c.task0.pc == 5 && c.task1.pc == 5

/-- The host document contains a token structurally equal to `t`. -/
def hostHasToken (c : Config) (t : Erc20Token) : Bool :=
  (c.host.erc20Tokens.getD []).contains t

/-- The first of the two concretely upserted tokens of the lost-update
scenario. -/
def tokA : Erc20Token :=
  { address := "1", chainId := "1", name := "TokenA", symbol := "TKA", decimals := 18 }

/-- The second token, with a different natural key on the same chain. -/
def tokB : Erc20Token :=
  { address := "2", chainId := "1", name := "TokenB", symbol := "TKB", decimals := 6 }

/-- Spec-side characterization of the sender/contract address
predicate, phrased on the raw optional string (§4.3): pass-through when
unset or empty, otherwise unsigned-integer equality. -/
def specAddrPass (cfg : Option String) (keyStr : String) : Bool :=
  match cfg with
  | none => true
  | some sa => if sa = "" then true else toBigInt keyStr == toBigInt sa

/-- Spec-side characterization of a set-membership predicate (type,
finality status, execution status): pass-through when unset. -/
def specMemberPass (cfg : Option (List String)) (v : String) : Bool :=
  match cfg with
  | none => true
  | some l => l.contains v

/-- Spec-side characterization of the timestamp predicate: pass-through
when unset, otherwise the timestamp in milliseconds is at least the
minimum. -/
def specMinTsPass (cfg : Option Int) (ts : Int) : Bool :=
  match cfg with
  | none => true
  | some m => ts * 1000 ≥ m

/-- The locator predicate as a pure boolean, for stating what the
locators return when no exception occurs: the stored key equals the
query key as unsigned integers and the chain ids are `Number`-equal. -/
def pureNumericMatch (storedKey queryKey storedChain queryChain : String) : Bool :=
  match toBigInt storedKey, toBigInt queryKey with
  | some a, some b => a == b && numEq (jsNumber storedChain) (jsNumber queryChain)
  | _, _ => false

/-- An empty document: every collection absent. -/
def emptyDoc : SnapState :=
  { accContracts := none, networks := none, erc20Tokens := none, transactions := none }

/-- Concrete `ACCEPTED_ON_L1` transaction at timestamp 150 s for the
pruning-boundary analysis. -/
def txL1 : Transaction :=
  { txnHash := "1", chainId := "1", senderAddress := "1", contractAddress := "2",
    txnType := "INVOKE", status := "", finalityStatus := ACCEPTED_ON_L1,
    executionStatus := "SUCCEEDED", failureReason := "", timestamp := 150 }

/-- Concrete `ACCEPTED_ON_L2` transaction at timestamp 50 s. -/
def txL2Old : Transaction :=
  { txL1 with txnHash := "2", finalityStatus := ACCEPTED_ON_L2, timestamp := 50 }

/-- Concrete `ACCEPTED_ON_L2` transaction at timestamp 150 s. -/
def txL2New : Transaction :=
  { txL1 with txnHash := "3", finalityStatus := ACCEPTED_ON_L2, timestamp := 150 }

/-- Concrete `PENDING` transaction at timestamp 10 s. -/
def txPending : Transaction :=
  { txL1 with txnHash := "4", finalityStatus := "PENDING", timestamp := 10 }

/-- A stored account whose deploy-transaction hash is already set. -/
def accStored : AccContract :=
  { address := "1", chainId := "1", addressSalt := "s", addressIndex := 0,
    derivationPath := "m", publicKey := "k", deployTxnHash := "0xdead" }

/-- The same account as `accStored` but with an empty (falsy)
deploy-transaction hash, as a later poll would resubmit it. -/
def accIncoming : AccContract :=
  { accStored with deployTxnHash := "" }

/-- A document holding exactly `accStored`. -/
def docAccStored : SnapState :=
  { emptyDoc with accContracts := some [accStored] }

/-- A fresh account for the insert-path witnesses. -/
def accFresh : AccContract :=
  { address := "5", chainId := "1", addressSalt := "t", addressIndex := 2,
    derivationPath := "m", publicKey := "q", deployTxnHash := "" }

/-- An incoming account sharing `accStored`'s natural key but differing
in the mutable fields. -/
def accMerge : AccContract :=
  { address := "0x1", chainId := "1", addressSalt := "u", addressIndex := 7,
    derivationPath := "m2", publicKey := "k2", deployTxnHash := "" }

/-- A non-legacy network on chain 1. -/
def netOne : Network :=
  { chainId := "1", name := "one", baseUrl := "b", nodeUrl := "n",
    voyagerUrl := "v", accountClassHash := "0xc", useOldAccounts := false }

/-- A legacy-flagged network on chain 2. -/
def netLegacy : Network :=
  { chainId := "2", name := "two", baseUrl := "b", nodeUrl := "n",
    voyagerUrl := "v", accountClassHash := "0xc", useOldAccounts := true }

/-- A document holding both example networks. -/
def docNets : SnapState :=
  { emptyDoc with networks := some [netOne, netLegacy] }

/-- First transaction of the spec's AND-composition example:
chain 1, sender S1, `ACCEPTED_ON_L2`, timestamp 100. -/
def txF1 : Transaction :=
  { txnHash := "10", chainId := "1", senderAddress := "100", contractAddress := "7",
    txnType := "INVOKE", status := "", finalityStatus := ACCEPTED_ON_L2,
    executionStatus := "", failureReason := "", timestamp := 100 }

/-- Second: chain 1, sender S2, `PENDING`, timestamp 200. -/
def txF2 : Transaction :=
  { txF1 with
    txnHash := "11"
    senderAddress := "200"
    finalityStatus := "PENDING"
    timestamp := 200 }

/-- Third: chain 2, sender S1, `ACCEPTED_ON_L2`, timestamp 300. -/
def txF3 : Transaction :=
  { txF1 with txnHash := "12", chainId := "2", timestamp := 300 }

/-- A document holding the three filter-example transactions. -/
def docFilter : SnapState :=
  { emptyDoc with transactions := some [txF1, txF2, txF3] }

/-- A document for the pruning-boundary example of the spec. -/
def docPrune : SnapState :=
  { emptyDoc with transactions := some [txL2Old, txL2New, txPending] }

/-- A document holding one record of every kind. -/
def docFull : SnapState :=
  { accContracts := some [accStored], networks := some [netOne],
    erc20Tokens := some [tokA], transactions := some [txF1] }

/-- Reduction of `Except` bind on a success value. -/
theorem except_bind_ok (a : α) (f : α → Except ε β) :
    (Except.ok a : Except ε α) >>= f = f a := rfl

/-- Reduction of `Except` bind on an error value. -/
theorem except_bind_err (e : ε) (f : α → Except ε β) :
    (Except.error e : Except ε α) >>= f = .error e := rfl

/-- Pointwise-equal throwing predicates find the same first match. -/
theorem findWithIdxAux_congr (p q : α → Except String Bool) (h : ∀ x, p x = q x)
    (l : List α) : ∀ i, findWithIdxAux p l i = findWithIdxAux q l i := by
  induction l with
  | nil => intro i; rfl
  | cons x xs ih =>
      intro i
      cases hq : q x with
      | error e => simp [findWithIdxAux, h x, hq, except_bind_err]
      | ok b => cases b <;> simp [findWithIdxAux, h x, hq, except_bind_ok, ih]

/-- The same congruence at the top level. -/
theorem findWithIdx_congr (p q : α → Except String Bool) (h : ∀ x, p x = q x)
    (l : List α) : findWithIdx p l = findWithIdx q l :=
  findWithIdxAux_congr p q h l 0

/-- Scanning past an unmatched prefix resumes at the shifted index. -/
theorem findWithIdxAux_append_none (p : α → Except String Bool) (l l' : List α) :
    ∀ i, findWithIdxAux p l i = .ok none →
      findWithIdxAux p (l ++ l') i = findWithIdxAux p l' (i + l.length) := by
  induction l with
  | nil => intro i h; simp [findWithIdxAux]
  | cons x xs ih =>
      intro i h
      cases hp : p x with
      | error e => simp [findWithIdxAux, hp, except_bind_err] at h
      | ok b =>
          cases b
          · simp only [findWithIdxAux, hp, except_bind_ok, if_neg, Bool.false_eq_true,
              not_false_iff, List.cons_append, List.append_eq] at h ⊢
            rw [ih (i + 1) h]
            have harith : i + (x :: xs).length = i + 1 + xs.length := by
              simp [List.length_cons]
              omega
            rw [harith]
          · simp [findWithIdxAux, hp, except_bind_ok, pure, Except.pure] at h

/-- A throwing predicate that agrees with a pure one computes `find?`. -/
theorem findWithIdxAux_pure (p : α → Except String Bool) (q : α → Bool) (l : List α)
    (h : ∀ x ∈ l, p x = .ok (q x)) :
    ∀ i, Except.map (fun o => Option.map Prod.snd o) (findWithIdxAux p l i) =
      .ok (l.find? q) := by
  induction l with
  | nil => intro i; rfl
  | cons x xs ih =>
      intro i
      have hx : p x = .ok (q x) := h x (by simp)
      cases hq : q x
      · rw [List.find?_cons_of_neg _ (by simp [hq])]
        simp only [findWithIdxAux, hx, hq, except_bind_ok, if_neg, Bool.false_eq_true,
          not_false_iff]
        exact ih (fun y hy => h y (by simp [hy])) (i + 1)
      · rw [List.find?_cons_of_pos _ (by simp [hq])]
        simp [findWithIdxAux, hx, hq, except_bind_ok, Except.map, pure, Except.pure]


/-- Claim C1, counterexample: an `ACCEPTED_ON_L1` transaction whose
timestamp in milliseconds (150000) is at least the cutoff (100000) is
nevertheless removed by the pruning operation, contradicting the claim
that every accepted transaction at or past the cutoff is retained. -/
theorem C1_counterexample :
    txL1.finalityStatus = ACCEPTED_ON_L1 ∧
    txL1.timestamp * 1000 ≥ 100000 ∧
    removeAcceptedTransactionCore 100000 { emptyDoc with transactions := some [txL1] } =
      .ok ({ emptyDoc with transactions := some [] }, true) := by
  refine ⟨rfl, by decide, by decide⟩

/-- Claim C1, amended: on a document whose transaction collection is
present, pruning keeps exactly the transactions that are on neither
accepted finality tier, or that are `ACCEPTED_ON_L2` with timestamp (in
milliseconds) at least the cutoff; `ACCEPTED_ON_L1` transactions are
removed regardless of timestamp, and the write-back is unconditional. -/
theorem C1_amended (minTs : Int) (s : SnapState) (l : List Transaction)
    (h : s.transactions = some l) :
    removeAcceptedTransactionCore minTs s =
      .ok ({ s with transactions := some (l.filter (keepTxn minTs)) }, true) ∧
    ∀ t, t ∈ l.filter (keepTxn minTs) ↔
      (t ∈ l ∧ ((t.finalityStatus ≠ ACCEPTED_ON_L2 ∧ t.finalityStatus ≠ ACCEPTED_ON_L1) ∨
        (t.finalityStatus = ACCEPTED_ON_L2 ∧ t.timestamp * 1000 ≥ minTs))) := by
  constructor
  · simp [removeAcceptedTransactionCore, h]
  · intro t
    simp only [List.mem_filter, keepTxn, Bool.or_eq_true, Bool.and_eq_true, bne_iff_ne,
      beq_iff_eq, decide_eq_true_eq]

/-- Claim C1, witness: the amended characterization applied to a
concrete document: the old `ACCEPTED_ON_L2` record is dropped, the fresh
one and the `PENDING` one are kept. -/
theorem C1_witness :
    (removeAcceptedTransactionCore 100000 docPrune =
      .ok ({ docPrune with transactions := some [txL2New, txPending] }, true)) ∧
    txPending ∈ [txL2Old, txL2New, txPending].filter (keepTxn 100000) := by
  constructor
  · have h := (C1_amended 100000 docPrune [txL2Old, txL2New, txPending] rfl).1
    have hf : [txL2Old, txL2New, txPending].filter (keepTxn 100000) = [txL2New, txPending] := by
      decide
    rw [hf] at h
    exact h
  · exact ((C1_amended 100000 docPrune [txL2Old, txL2New, txPending] rfl).2 txPending).mpr
      ⟨by decide, by decide⟩

/-- Claim C2, counterexample: upserting an account whose incoming
deploy-transaction hash is empty over a stored account that has one
performs a host write-back on the first call and again on the second
identical call — the stored record never becomes canonically equal to
the incoming one, so the second write-back is not skipped and two
write-backs occur instead of one. -/
theorem C2_counterexample :
    canonicalEq accStored accIncoming = false ∧
    (upsertAccountCore accIncoming docAccStored = .ok (docAccStored, true)) ∧
    ((upsertAccountCore accIncoming docAccStored).bind
        (fun r => upsertAccountCore accIncoming r.1) = .ok (docAccStored, true)) := by
  refine ⟨by decide, by decide, by decide⟩

/-- Claim C2, amended: when the first upsert inserts the record (no
stored match, numeric chain id), the second upsert of the same record
finds it canonically equal, skips the host write-back entirely, and
leaves the document unchanged, so the two calls perform exactly one
write-back; when the first call merged instead, the second skips only
if the merged stored record is canonically equal to the incoming one. -/
theorem C2_amended (r : AccContract) (s : SnapState)
    (hfind : getAccountIdx s r.address r.chainId = .ok none)
    (hc : (jsNumber r.chainId).isSome) :
    upsertAccountCore r s =
      .ok ({ s with accContracts := some (s.accContracts.getD [] ++ [r]) }, true) ∧
    upsertAccountCore r { s with accContracts := some (s.accContracts.getD [] ++ [r]) } =
      .ok ({ s with accContracts := some (s.accContracts.getD [] ++ [r]) }, false) := by
  obtain ⟨big, hbig⟩ : ∃ big, toBigInt r.address = some big := by
    cases htb : toBigInt r.address with
    | none => simp [getAccountIdx, htb, ofOption, except_bind_err] at hfind
    | some b => exact ⟨b, rfl⟩
  have hfindl : findWithIdx (accountPred big r.chainId) (s.accContracts.getD []) = .ok none := by
    cases hacc : s.accContracts with
    | none => simp [findWithIdx, findWithIdxAux]
    | some l =>
        simp only [getAccountIdx, hbig, ofOption, except_bind_ok, hacc] at hfind
        simpa [hacc] using hfind
  have hpred : accountPred big r.chainId r = .ok true := by
    obtain ⟨v, hv⟩ := Option.isSome_iff_exists.mp hc
    simp [accountPred, hbig, ofOption, except_bind_ok, numEq, hv, pure, Except.pure]
  have h1 : upsertAccountCore r s =
      .ok ({ s with accContracts := some (s.accContracts.getD [] ++ [r]) }, true) := by
    have hidx : getAccountIdx s r.address r.chainId = .ok none := hfind
    simp only [upsertAccountCore, hidx, except_bind_ok]
    rfl
  refine ⟨h1, ?_⟩
  have hfind2 : getAccountIdx { s with accContracts := some (s.accContracts.getD [] ++ [r]) }
      r.address r.chainId = .ok (some ((s.accContracts.getD []).length, r)) := by
    simp only [getAccountIdx, hbig, ofOption, except_bind_ok]
    rw [findWithIdx, findWithIdxAux_append_none _ _ _ 0 hfindl]
    simp [findWithIdxAux, hpred, except_bind_ok, pure, Except.pure]
  simp only [upsertAccountCore, hfind2, except_bind_ok]
  simp [canonicalEq, pure, Except.pure]

/-- Claim C2, witness: the amended idempotence applied to a fresh
account inserted into the empty document. -/
theorem C2_witness :
    upsertAccountCore accFresh emptyDoc =
      .ok ({ emptyDoc with accContracts := some (emptyDoc.accContracts.getD [] ++ [accFresh]) },
        true) ∧
    upsertAccountCore accFresh
        { emptyDoc with accContracts := some (emptyDoc.accContracts.getD [] ++ [accFresh]) } =
      .ok ({ emptyDoc with accContracts := some (emptyDoc.accContracts.getD [] ++ [accFresh]) },
        false) :=
  C2_amended accFresh emptyDoc (by decide) (by decide)

/-- Claim C3 (confirmed): on the merge path, `upsertAccount` replaces
only the located record, whose merged value keeps the stored address and
chain id, takes the incoming salt, derivation index, derivation path and
public key, takes the incoming deploy-transaction hash only when
non-empty (else keeps the stored one), and every other position of the
collection is untouched. -/
theorem C3_theorem (r : AccContract) (s : SnapState) (i : Nat) (stored : AccContract)
    (hfind : getAccountIdx s r.address r.chainId = .ok (some (i, stored)))
    (hne : canonicalEq stored r = false) :
    upsertAccountCore r s =
      .ok
        ({ s with
           accContracts := some ((s.accContracts.getD []).set i (mergeAccount stored r)) },
         true) ∧
    (mergeAccount stored r).address = stored.address ∧
    (mergeAccount stored r).chainId = stored.chainId ∧
    (mergeAccount stored r).addressSalt = r.addressSalt ∧
    (mergeAccount stored r).addressIndex = r.addressIndex ∧
    (mergeAccount stored r).derivationPath = r.derivationPath ∧
    (mergeAccount stored r).publicKey = r.publicKey ∧
    (mergeAccount stored r).deployTxnHash =
      (if r.deployTxnHash = "" then stored.deployTxnHash else r.deployTxnHash) ∧
    ∀ j, j ≠ i → ((s.accContracts.getD []).set i (mergeAccount stored r))[j]? =
      (s.accContracts.getD [])[j]? := by
  refine ⟨?_, rfl, rfl, rfl, rfl, rfl, rfl, rfl, ?_⟩
  · simp only [upsertAccountCore, hfind, except_bind_ok, hne]
    rfl
  · intro j hj
    exact List.getElem?_set_ne (Ne.symm hj)

/-- Claim C3, witness: the merge of a concrete incoming account over a
stored one keeps identity fields and the stored deploy hash. -/
theorem C3_witness :
    upsertAccountCore accMerge docAccStored =
      .ok
        ({ docAccStored with
           accContracts :=
             some ((docAccStored.accContracts.getD []).set 0 (mergeAccount accStored accMerge)) },
         true) ∧
    (mergeAccount accStored accMerge).address = accStored.address ∧
    (mergeAccount accStored accMerge).chainId = accStored.chainId ∧
    (mergeAccount accStored accMerge).deployTxnHash = accStored.deployTxnHash := by
  have h := C3_theorem accMerge docAccStored 0 accStored (by decide) (by decide)
  refine ⟨h.1, h.2.1, h.2.2.1, ?_⟩
  have hd := h.2.2.2.2.2.2.2.1
  rw [hd]
  decide


/-- A locator predicate with parseable keys computes its pure form. -/
theorem predOkPure (keyStr chainStr addr c : String) (b : Nat)
    (hb : toBigInt addr = some b) (ha : (toBigInt keyStr).isSome) :
    ((do
      let a ← ofOption (toBigInt keyStr) "toBigInt"
      pure (a == b && numEq (jsNumber chainStr) (jsNumber c))) : Except String Bool) =
    .ok (pureNumericMatch keyStr addr chainStr c) := by
  obtain ⟨a, ha'⟩ := Option.isSome_iff_exists.mp ha
  simp [ofOption, ha', except_bind_ok, pureNumericMatch, hb, pure, Except.pure]

/-- Claim C4, counterexample: `getAccounts` on a document whose account
collection is absent raises a TypeError (the source reads `.filter` of
`undefined` without optional chaining), contradicting the claim that
every locator never raises. -/
theorem C4_counterexample :
    getAccounts emptyDoc "1" = .error "TypeError: cannot read filter of undefined" := by
  decide

/-- Claim C4, amended: given numerically parseable queried and stored
keys, the single-record locators return the first structural match or a
not-found result and never raise, on any document including one with the
collection absent; `getAccounts` never raises when the account
collection is present (returning the chain-filtered, index-sorted list)
but raises when it is absent. -/
theorem C4_amended (s : SnapState) (addr c : String)
    (hq : (toBigInt addr).isSome)
    (hacc : ∀ x ∈ s.accContracts.getD [], (toBigInt x.address).isSome)
    (htok : ∀ x ∈ s.erc20Tokens.getD [], (toBigInt x.address).isSome)
    (htxn : ∀ x ∈ s.transactions.getD [], (toBigInt x.txnHash).isSome) :
    getAccount s addr c =
      .ok ((s.accContracts.getD []).find?
        (fun x => pureNumericMatch x.address addr x.chainId c)) ∧
    getErc20Token s addr c =
      .ok ((s.erc20Tokens.getD []).find?
        (fun x => pureNumericMatch x.address addr x.chainId c)) ∧
    getTransaction s addr c =
      .ok ((s.transactions.getD []).find?
        (fun x => pureNumericMatch x.txnHash addr x.chainId c)) ∧
    getNetwork s c = (s.networks.getD []).find?
      (fun n => numEq (jsNumber n.chainId) (jsNumber c) && !n.useOldAccounts) ∧
    (∀ l, s.accContracts = some l →
      getAccounts s c =
        .ok ((l.filter (fun x => numEq (jsNumber x.chainId) (jsNumber c))).mergeSort
          (fun a b => a.addressIndex ≤ b.addressIndex))) := by
  obtain ⟨b, hb⟩ := Option.isSome_iff_exists.mp hq
  refine ⟨?_, ?_, ?_, rfl, ?_⟩
  · rw [getAccount]
    cases hc : s.accContracts with
    | none => simp [getAccountIdx, hb, ofOption, except_bind_ok, hc, Except.map]
    | some l =>
        simp only [getAccountIdx, hb, ofOption, except_bind_ok, hc]
        rw [findWithIdx]
        have hall : ∀ x ∈ l, accountPred b c x =
            .ok (pureNumericMatch x.address addr x.chainId c) := by
          intro x hx
          exact predOkPure x.address x.chainId addr c b hb (hacc x (by simp [hc, hx]))
        simpa [hc] using findWithIdxAux_pure (accountPred b c)
          (fun x => pureNumericMatch x.address addr x.chainId c) l hall 0
  · rw [getErc20Token]
    cases hc : s.erc20Tokens with
    | none => simp [getErc20TokenIdx, hb, ofOption, except_bind_ok, hc, Except.map]
    | some l =>
        simp only [getErc20TokenIdx, hb, ofOption, except_bind_ok, hc]
        rw [findWithIdx]
        have hall : ∀ x ∈ l, tokenPred b c x =
            .ok (pureNumericMatch x.address addr x.chainId c) := by
          intro x hx
          exact predOkPure x.address x.chainId addr c b hb (htok x (by simp [hc, hx]))
        simpa [hc] using findWithIdxAux_pure (tokenPred b c)
          (fun x => pureNumericMatch x.address addr x.chainId c) l hall 0
  · rw [getTransaction]
    cases hc : s.transactions with
    | none => simp [getTransactionIdx, hb, ofOption, except_bind_ok, hc, Except.map]
    | some l =>
        simp only [getTransactionIdx, hb, ofOption, except_bind_ok, hc]
        rw [findWithIdx]
        have hall : ∀ x ∈ l, txnPred b c x =
            .ok (pureNumericMatch x.txnHash addr x.chainId c) := by
          intro x hx
          exact predOkPure x.txnHash x.chainId addr c b hb (htxn x (by simp [hc, hx]))
        simpa [hc] using findWithIdxAux_pure (txnPred b c)
          (fun x => pureNumericMatch x.txnHash addr x.chainId c) l hall 0
  · intro l hl
    simp [getAccounts, hl]

/-- Claim C4, witness: the locator contracts applied to a concrete
document holding one record of each kind. -/
theorem C4_witness :
    getAccount docFull "0x1" "1" = .ok (some accStored) ∧
    getErc20Token docFull "0x1" "1" = .ok (some tokA) ∧
    getTransaction docFull "0x1" "1" = .ok none ∧
    getNetwork docFull "1" = some netOne ∧
    getAccounts docFull "1" = .ok [accStored] := by
  have h := C4_amended docFull "0x1" "1" (by decide) (by decide) (by decide) (by decide)
  refine ⟨?_, ?_, ?_, ?_, ?_⟩
  · rw [h.1]; decide
  · rw [h.2.1]; decide
  · rw [h.2.2.1]; decide
  · rw [h.2.2.2.1]; decide
  · rw [h.2.2.2.2 [accStored] rfl]
    have hf : [accStored].filter (fun x => numEq (jsNumber x.chainId) (jsNumber "1")) =
        [accStored] := by decide
    rw [hf, List.mergeSort_singleton]

/-- Claim C5 (confirmed): lookups compare address-like and hash-like
keys as unsigned integers after normalization and chain ids numerically:
two queries whose address strings parse to the same integer and whose
chain-id strings have the same numeric value return identical results
from `getAccount` and `getTransaction`. -/
theorem C5_theorem (s : SnapState) (a1 a2 c1 c2 : String)
    (hA : toBigInt a1 = toBigInt a2) (hC : jsNumber c1 = jsNumber c2) :
    getAccount s a1 c1 = getAccount s a2 c2 ∧
    getTransaction s a1 c1 = getTransaction s a2 c2 := by
  constructor
  · have hidx : getAccountIdx s a1 c1 = getAccountIdx s a2 c2 := by
      rw [getAccountIdx, getAccountIdx, hA]
      cases hb : toBigInt a2 with
      | none => rfl
      | some b =>
          simp only [ofOption, except_bind_ok]
          cases s.accContracts with
          | none => rfl
          | some l =>
              exact findWithIdx_congr _ _ (fun x => by simp [accountPred, hC]) l
    rw [getAccount, getAccount, hidx]
  · have hidx : getTransactionIdx s a1 c1 = getTransactionIdx s a2 c2 := by
      rw [getTransactionIdx, getTransactionIdx, hA]
      cases hb : toBigInt a2 with
      | none => rfl
      | some b =>
          simp only [ofOption, except_bind_ok]
          cases s.transactions with
          | none => rfl
          | some l =>
              exact findWithIdx_congr _ _ (fun x => by simp [txnPred, hC]) l
    rw [getTransaction, getTransaction, hidx]

/-- Claim C5, witness: the hex query `"0x1"` and the decimal query
`"1"` agree, and the hex query finds the record stored with decimal
address `"1"`. -/
theorem C5_witness :
    toBigInt "0x1" = toBigInt "1" ∧
    getAccount docAccStored "0x1" "0x1" = getAccount docAccStored "1" "1" ∧
    getAccount docAccStored "0x1" "0x1" = .ok (some accStored) := by
  have h := C5_theorem docAccStored "0x1" "1" "0x1" "1" (by decide) (by decide)
  exact ⟨by decide, h.1, by decide⟩

/-- A parseable optional address argument resolves without throwing,
and the resulting filter configuration matches the spec-side predicate
on the raw string. -/
theorem resolveOptBigInt_ok (o : Option String)
    (h : ∀ sa, o = some sa → sa ≠ "" → (toBigInt sa).isSome) :
    ∃ b, resolveOptBigInt o = .ok b ∧
      ∀ keyStr,
        (match b with
         | none => true
         | some v => toBigInt keyStr == some v) = specAddrPass o keyStr := by
  cases o with
  | none => exact ⟨none, rfl, fun k => rfl⟩
  | some sa =>
      by_cases hsa : sa = ""
      · subst hsa
        exact ⟨none, rfl, fun k => by simp [specAddrPass]⟩
      · obtain ⟨v, hv⟩ := Option.isSome_iff_exists.mp (h sa rfl hsa)
        refine ⟨some v, ?_, fun k => by simp [specAddrPass, hsa, hv]⟩
        simp [resolveOptBigInt, hsa, ofOption, hv, except_bind_ok, pure, Except.pure]

/-- Claim C6 (confirmed): `getTransactions` returns exactly the
subsequence of the stored transactions satisfying the conjunction of the
six predicates — numeric chain-id equality, minimum timestamp in
milliseconds, sender and contract address as unsigned-integer equality,
type membership, and finality/execution status membership — where every
unset configuration passes every transaction, and the result is a
sublist of the input (original order, records unchanged). -/
theorem C6_theorem (s : SnapState) (chainId : String)
    (sender contract : Option String) (ty fin ex : Option (List String))
    (mts : Option Int) (txns : List Transaction)
    (ht : s.transactions = some txns)
    (hs : ∀ sa, sender = some sa → sa ≠ "" → (toBigInt sa).isSome)
    (hc : ∀ ca, contract = some ca → ca ≠ "" → (toBigInt ca).isSome) :
    ∃ res, getTransactions s chainId sender contract ty fin ex mts = .ok res ∧
      res = txns.filter (fun t =>
        numEq (jsNumber t.chainId) (jsNumber chainId) &&
        specMinTsPass mts t.timestamp &&
        specAddrPass sender t.senderAddress &&
        specAddrPass contract t.contractAddress &&
        specMemberPass ty t.txnType &&
        (specMemberPass fin t.finalityStatus && specMemberPass ex t.executionStatus)) ∧
      res.Sublist txns := by
  obtain ⟨sb, hsbeq, hsbp⟩ := resolveOptBigInt_ok sender hs
  obtain ⟨cb, hcbeq, hcbp⟩ := resolveOptBigInt_ok contract hc
  refine ⟨_, ?_, rfl, List.filter_sublist _⟩
  simp only [getTransactions, ht, hsbeq, except_bind_ok, hcbeq]
  rw [filterTransactions]
  have hcong : ∀ t ∈ txns,
      ([TxnFilter.chainId (jsNumber chainId), TxnFilter.timestamp mts,
        TxnFilter.senderAddress sb, TxnFilter.contractAddress cb,
        TxnFilter.txnType ty, TxnFilter.status fin ex].all
          (fun f => f.matches t)) =
      (numEq (jsNumber t.chainId) (jsNumber chainId) &&
        specMinTsPass mts t.timestamp &&
        specAddrPass sender t.senderAddress &&
        specAddrPass contract t.contractAddress &&
        specMemberPass ty t.txnType &&
        (specMemberPass fin t.finalityStatus && specMemberPass ex t.executionStatus)) := by
    intro t _
    simp only [List.all_cons, List.all_nil, TxnFilter.matches, Bool.and_true,
      hsbp t.senderAddress, hcbp t.contractAddress, specMinTsPass, specMemberPass,
      Bool.and_assoc]
  rw [List.filter_congr hcong]
  rfl

/-- Claim C6, witness: the spec's AND-composition example — filtering
by chain 1 and sender `"100"` over the three stored transactions returns
exactly the first. -/
theorem C6_witness :
    getTransactions docFilter "1" (some "100") none none none none none = .ok [txF1] := by
  obtain ⟨res, heq, hres, -⟩ :=
    C6_theorem docFilter "1" (some "100") none none none none none [txF1, txF2, txF3] rfl
      (fun sa hsa hne => by injection hsa with h; subst h; decide)
      (fun ca hca hne => by cases hca)
  rw [heq, hres]
  decide

/-- Claim C7 (confirmed): the batch `upsertTransactions` acquires the
lock exactly once, calls host `get` at most once (never when a document
was supplied), applies the locate-then-insert-or-merge step to every
record of the batch against that single document, and on success always
performs exactly one host `update` — with no per-record no-op check. -/
theorem C7_theorem (txns : List Transaction) (supplied : Option SnapState)
    (hostDoc : SnapState) (s' : SnapState)
    (h : (upsertTransactionsOp txns supplied hostDoc).2 = .ok s') :
    (upsertTransactionsOp txns supplied hostDoc).1.count HostEvent.acquireLock = 1 ∧
    (upsertTransactionsOp txns supplied hostDoc).1.count HostEvent.get ≤ 1 ∧
    (∀ s0, supplied = some s0 →
      (upsertTransactionsOp txns supplied hostDoc).1.count HostEvent.get = 0 ∧
      batchApply txns s0 = .ok s') ∧
    (supplied = none → batchApply txns hostDoc = .ok s') ∧
    (upsertTransactionsOp txns supplied hostDoc).1.filter HostEvent.isUpdate =
      [HostEvent.update s'] := by
  cases supplied with
  | none =>
      cases hba : batchApply txns hostDoc with
      | error e => simp [upsertTransactionsOp, hba] at h
      | ok s'' =>
          have hss : s'' = s' := by simpa [upsertTransactionsOp, hba] using h
          subst hss
          refine ⟨?_, ?_, ?_, ?_, ?_⟩
          · simp [upsertTransactionsOp, hba, List.count_cons, List.count_nil]
          · simp [upsertTransactionsOp, hba, List.count_cons, List.count_nil]
          · intro s0 h0; cases h0
          · intro h0; rfl
          · simp [upsertTransactionsOp, hba, List.filter, HostEvent.isUpdate]
  | some s0 =>
      cases hba : batchApply txns s0 with
      | error e => simp [upsertTransactionsOp, hba] at h
      | ok s'' =>
          have hss : s'' = s' := by simpa [upsertTransactionsOp, hba] using h
          subst hss
          refine ⟨?_, ?_, ?_, ?_, ?_⟩
          · simp [upsertTransactionsOp, hba, List.count_cons, List.count_nil]
          · simp [upsertTransactionsOp, hba, List.count_cons, List.count_nil]
          · intro s1 h1
            injection h1 with h1
            subst h1
            exact ⟨by simp [upsertTransactionsOp, hba, List.count_cons, List.count_nil], hba⟩
          · intro h0; cases h0
          · simp [upsertTransactionsOp, hba, List.filter, HostEvent.isUpdate]

/-- Claim C7, witness: a batch whose single record is already stored
unchanged still acquires once, fetches once, and writes back exactly
once. -/
theorem C7_witness :
    (upsertTransactionsOp [txF1] none docFilter).1.count HostEvent.acquireLock = 1 ∧
    (upsertTransactionsOp [txF1] none docFilter).1.count HostEvent.get ≤ 1 ∧
    (upsertTransactionsOp [txF1] none docFilter).1.filter HostEvent.isUpdate =
      [HostEvent.update docFilter] := by
  have h := C7_theorem [txF1] none docFilter docFilter (by decide)
  exact ⟨h.1, h.2.1, h.2.2.2.2⟩

/-- Claim C9 (confirmed): for a non-empty chain id,
`getNetworkFromChainId` returns only a stored network matching the chain
numerically with the legacy flag unset, and throws its distinct
"cant find the network" error exactly when no such non-legacy network is
stored; a legacy-flagged network is never returned. -/
theorem C9_theorem (s : SnapState) (c : String) (hc : c ≠ "") :
    (∀ n, getNetworkFromChainId s (some c) = .ok n →
       n ∈ s.networks.getD [] ∧ numEq (jsNumber n.chainId) (jsNumber c) = true ∧
       n.useOldAccounts = false) ∧
    ((∃ e, getNetworkFromChainId s (some c) = .error e) ↔
       ∀ n ∈ s.networks.getD [], numEq (jsNumber n.chainId) (jsNumber c) = true →
         n.useOldAccounts = true) := by
  have hcid : getNetworkFromChainId s (some c) =
      (match getNetwork s c with
       | none => .error ("cant find the network in snap state with chainId: " ++ c)
       | some n => .ok n) := by
    simp [getNetworkFromChainId, hc]
  constructor
  · intro n hn
    rw [hcid] at hn
    cases hfind : getNetwork s c with
    | none => rw [hfind] at hn; cases hn
    | some m =>
        rw [hfind] at hn
        injection hn with hn
        subst hn
        have hp := List.find?_some hfind
        have hmem := List.mem_of_find?_eq_some hfind
        simp only [Bool.and_eq_true, Bool.not_eq_true'] at hp
        exact ⟨hmem, hp.1, hp.2⟩
  · constructor
    · rintro ⟨e, he⟩ n hn hmatch
      rw [hcid] at he
      cases hfind : getNetwork s c with
      | some m => rw [hfind] at he; cases he
      | none =>
          have hall := List.find?_eq_none.mp hfind n hn
          simp only [Bool.and_eq_true, Bool.not_eq_true', not_and] at hall
          simpa using hall hmatch
    · intro hall
      cases hfind : getNetwork s c with
      | some m =>
          exfalso
          have hp := List.find?_some hfind
          have hmem := List.mem_of_find?_eq_some hfind
          simp only [Bool.and_eq_true, Bool.not_eq_true'] at hp
          have := hall m hmem hp.1
          rw [this] at hp
          cases hp.2
      | none =>
          refine ⟨"cant find the network in snap state with chainId: " ++ c, ?_⟩
          rw [hcid, hfind]

/-- Claim C9, witness: chain `"1"` returns the stored non-legacy
network; chain `"2"`, stored only with the legacy flag, throws. -/
theorem C9_witness :
    (netOne ∈ docNets.networks.getD [] ∧
     numEq (jsNumber netOne.chainId) (jsNumber "1") = true ∧
     netOne.useOldAccounts = false) ∧
    (∃ e, getNetworkFromChainId docNets (some "2") = .error e) := by
  constructor
  · exact (C9_theorem docNets "1" (by decide)).1 netOne (by decide)
  · exact (C9_theorem docNets "2" (by decide)).2.mpr (by decide)

/-- Claim C10 (confirmed): with the token collection absent,
`getErc20Tokens` returns `none` rather than an empty list, while
`getTransactions` with the transaction collection absent returns `ok`
with the empty list; with the token collection present the chain-filtered
list is returned. -/
theorem C10_theorem (s : SnapState) (c : String) :
    (s.erc20Tokens = none → getErc20Tokens s c = none) ∧
    (s.transactions = none → ∀ sender contract ty fin ex mts,
      getTransactions s c sender contract ty fin ex mts = .ok []) ∧
    (∀ l, s.erc20Tokens = some l →
      getErc20Tokens s c = some (l.filter (fun t => numEq (jsNumber t.chainId) (jsNumber c)))) := by
  refine ⟨?_, ?_, ?_⟩
  · intro h; simp [getErc20Tokens, h]
  · intro h sender contract ty fin ex mts
    simp [getTransactions, h]
  · intro l h; simp [getErc20Tokens, h]

/-- Claim C10, witness: the two collection accessors on the empty
document. -/
theorem C10_witness :
    getErc20Tokens emptyDoc "1" = none ∧
    getTransactions emptyDoc "1" none none none none none none = .ok [] :=
  ⟨(C10_theorem emptyDoc "1").1 rfl,
   (C10_theorem emptyDoc "1").2.1 rfl none none none none none none⟩

/-- Claim C8 (confirmed by exhaustive exploration of the two-task
interleaving model): the two tokens have different natural keys; the
exploration is complete (no configuration is reachable in 11 steps); in
every reachable configuration at most one task is inside the locked
critical section; and every terminal configuration is a completed run
whose host document contains both upserted tokens — no lost update,
regardless of interleaving. -/
theorem C8_theorem :
    toBigInt tokA.address ≠ toBigInt tokB.address ∧
    (levels tokA tokB 11).isEmpty = true ∧
    (((List.range 11).flatMap (levels tokA tokB)).all
      (fun c => !(inCrit c.task0 && inCrit c.task1) &&
        (if (succs tokA tokB c).isEmpty then
          c.done && hostHasToken c tokA && hostHasToken c tokB
         else true)) = true) := by
  refine ⟨by decide, by decide, by decide⟩
